import Mathlib

/-!
Shallow embedding of the SPC core of the `mqr` package (control-chart
parameter models, bias-constant lookup, alarm rules, Fredholm solver),
together with theorems settling the frozen claims about it.

Conventions used throughout:
* a pandas `Series` is embedded as a `List (ℕ × v)` of (index value, entry)
  pairs when the index values matter, or as a plain `List v` when only
  positions matter;
* Python exceptions (`ValueError`, `IndexError`, `AttributeError`,
  `NameError`) are embedded as `Except.error` with a message;
* floating point numbers are idealised as real numbers `ℝ`.
-/

set_option maxHeartbeats 1000000

namespace Mqr

universe u

variable {α : Type u}

/-- Embedding of `mqr.spc.util.lookup` applied to a plain integer index:
`table[index]` in Python, with an out-of-range access modelled as an
`IndexError`.  The guarded callers (`c4`, `d2`, `d3`) only ever pass
`index = n - 2` with `n ≥ 2`, so the natural-number index loses nothing. -/
def lookup (idx : ℕ) (table : List α) : Except String α :=
  match table.get? idx with
  | some v => Except.ok v
  | none => Except.error "IndexError"

/-- Embedding of `mqr.spc.util.c4` for a scalar argument `n`: raise a
`ValueError` when `n` is outside `[2, 100]`, otherwise look up the
precomputed table at index `n - 2`.  The table contents are opaque
(shipped as a pickle), so the definition is parametric in the table. -/
def c4 (table : List α) (n : ℤ) : Except String α :=
  if n < 2 ∨ 100 < n then
    Except.error "Sample size n must be between 2 and 100."
  else
    lookup (n - 2).toNat table

/-- Embedding of `mqr.spc.util.d2` for a scalar argument. -/
def d2 (table : List α) (n : ℤ) : Except String α :=
  if n < 2 ∨ 100 < n then
    Except.error "Sample size n must be between 2 and 100."
  else
    lookup (n - 2).toNat table

/-- Embedding of `mqr.spc.util.d3` for a scalar argument. -/
def d3 (table : List α) (n : ℤ) : Except String α :=
  if n < 2 ∨ 100 < n then
    Except.error "Sample size n must be between 2 and 100."
  else
    lookup (n - 2).toNat table

/-- Embedding of `mqr.spc.util.c4` applied to a `pd.Series`: the range
check is `np.any(n < 2) or np.any(n > 100)` over the whole series, after
which `lookup` maps `lambda n: table[n]` over `n - 2`, preserving the
series index. -/
def c4Series (table : List α) (ns : List (ℕ × ℤ)) : Except String (List (ℕ × α)) :=
  if ns.any (fun e => decide (e.2 < 2) || decide (100 < e.2)) then
    Except.error "Sample size n must be between 2 and 100."
  else
    ns.mapM (fun e => (lookup (e.2 - 2).toNat table).map (fun v => (e.1, v)))

/-- Embedding of `mqr.spc.util.d2` applied to a `pd.Series`. -/
def d2Series (table : List α) (ns : List (ℕ × ℤ)) : Except String (List (ℕ × α)) :=
  if ns.any (fun e => decide (e.2 < 2) || decide (100 < e.2)) then
    Except.error "Sample size n must be between 2 and 100."
  else
    ns.mapM (fun e => (lookup (e.2 - 2).toNat table).map (fun v => (e.1, v)))

/-- Embedding of `mqr.spc.util.d3` applied to a `pd.Series`. -/
def d3Series (table : List α) (ns : List (ℕ × ℤ)) : Except String (List (ℕ × α)) :=
  if ns.any (fun e => decide (e.2 < 2) || decide (100 < e.2)) then
    Except.error "Sample size n must be between 2 and 100."
  else
    ns.mapM (fun e => (lookup (e.2 - 2).toNat table).map (fun v => (e.1, v)))

/-! ### Data model of the control-parameter variants

The embedding mirrors `mqr.spc.lib.control`.  Since the Python code is
duck-typed in its `nobs` argument (a scalar or a `pd.Series`), the
argument is embedded as the sum type `Nobs`, and a value that may be
scalar or series as `LimVal`.  Sample sizes are integers; limits and
standard errors are reals. -/

/-- Argument `nobs` of the `se`, `lcl`, `ucl` methods: either a scalar
sample size or a series of (index, sample size) pairs. -/
inductive Nobs where
  | scalar : ℤ → Nobs
  | series : List (ℕ × ℤ) → Nobs

/-- Result of an `se`, `lcl` or `ucl` computation: a scalar when numpy
broadcasting keeps a scalar, or a series of (index, value) pairs. -/
inductive LimVal where
  | scalar : ℝ → LimVal
  | series : List (ℕ × ℝ) → LimVal

/-- Embedding of `XBarParams` (dataclass fields `centre`, `sigma`,
`nsigma`; the `name` field is presentation-only and omitted). -/
structure XBarParams where
  centre : ℝ
  sigma : ℝ
  nsigma : ℝ

/-- Embedding of `XBarParams.se`: `sigma / np.sqrt(nobs)`, broadcast
over a scalar or a series. -/
noncomputable def XBarParams.se (p : XBarParams) : Nobs → LimVal
  | Nobs.scalar n => LimVal.scalar (p.sigma / Real.sqrt (n : ℝ))
  | Nobs.series s => LimVal.series (s.map (fun e => (e.1, p.sigma / Real.sqrt ((e.2 : ℤ) : ℝ))))

/-- Embedding of `XBarParams.ucl`: `centre + nsigma * se(nobs)`. -/
noncomputable def XBarParams.ucl (p : XBarParams) (nobs : Nobs) : LimVal :=
  match p.se nobs with
  | LimVal.scalar v => LimVal.scalar (p.centre + p.nsigma * v)
  | LimVal.series s => LimVal.series (s.map (fun e => (e.1, p.centre + p.nsigma * e.2)))

/-- Embedding of the `lcl` method `XBarParams` actually has: the class
defines no `lcl` of its own, so the inherited `ControlParams.lcl` runs,
whose body is the bare statement `pass` — it returns Python `None` for
every argument.  (`ControlParams` carries `abc.abstractmethod`
decorations but not the `ABCMeta` metaclass, so instantiation and the
call are not blocked.) -/
def XBarParams.lcl (_ : XBarParams) (_ : Nobs) : Option LimVal :=
  none

/-- Embedding of `RParams` (fields `centre`, `sigma`, `nsigma`). -/
structure RParams where
  centre : ℝ
  sigma : ℝ
  nsigma : ℝ

/-- Embedding of `RParams.se`: `d3(nobs) * sigma`, where `d3` is the
range-checked table lookup; the table is passed explicitly in place of
the module-level global. -/
noncomputable def RParams.se (table : List ℝ) (p : RParams) : Nobs → Except String LimVal
  | Nobs.scalar n => (d3 table n).map (fun v => LimVal.scalar (v * p.sigma))
  | Nobs.series s =>
      (d3Series table s).map (fun l => LimVal.series (l.map (fun e => (e.1, e.2 * p.sigma))))

/-- Embedding of `RParams.target`: the centre line. -/
def RParams.target (p : RParams) : ℝ :=
  p.centre

/-- Embedding of `RParams.lcl`:
`np.clip(centre - nsigma * se(nobs), 0, np.inf)`, i.e. the lower limit
clamped to be non-negative, broadcast over the shape of `se(nobs)`. -/
noncomputable def RParams.lcl (table : List ℝ) (p : RParams) (nobs : Nobs) : Except String LimVal :=
  (p.se table nobs).map (fun sev =>
    match sev with
    | LimVal.scalar v => LimVal.scalar (max (p.centre - p.nsigma * v) 0)
    | LimVal.series s => LimVal.series (s.map (fun e => (e.1, max (p.centre - p.nsigma * e.2) 0))))

/-- Embedding of `RParams.ucl`: `centre + nsigma * se(nobs)`. -/
noncomputable def RParams.ucl (table : List ℝ) (p : RParams) (nobs : Nobs) : Except String LimVal :=
  (p.se table nobs).map (fun sev =>
    match sev with
    | LimVal.scalar v => LimVal.scalar (p.centre + p.nsigma * v)
    | LimVal.series s => LimVal.series (s.map (fun e => (e.1, p.centre + p.nsigma * e.2))))

/-- Embedding of the static factory `RParams.from_range(r_bar, nobs,
nsigma=3)`: builds `RParams(r_bar, r_bar / d2(nobs), nsigma=3)`.  Note
the source passes the literal `3` as `nsigma`, not the `nsigma`
argument. -/
noncomputable def RParams.from_range (table : List ℝ) (r_bar : ℝ) (nobs : ℤ) (_nsigma : ℝ) :
    Except String RParams :=
  (d2 table nobs).map (fun v => ⟨r_bar, r_bar / v, 3⟩)

/-- Embedding of `SParams` (fields `centre`, `nsigma`). -/
structure SParams where
  centre : ℝ
  nsigma : ℝ

/-- Embedding of `SParams.se`:
`centre * np.sqrt(1 - c4(nobs)**2) / c4(nobs)`. -/
noncomputable def SParams.se (table : List ℝ) (p : SParams) : Nobs → Except String LimVal
  | Nobs.scalar n =>
      (c4 table n).map (fun v => LimVal.scalar (p.centre * Real.sqrt (1 - v ^ 2) / v))
  | Nobs.series s =>
      (c4Series table s).map (fun l =>
        LimVal.series (l.map (fun e => (e.1, p.centre * Real.sqrt (1 - e.2 ^ 2) / e.2))))

/-- Embedding of `SParams.target`: the centre line. -/
def SParams.target (p : SParams) : ℝ :=
  p.centre

/-- Embedding of `SParams.lcl`:
`np.clip(target() - nsigma * se(nobs), 0, np.inf)`. -/
noncomputable def SParams.lcl (table : List ℝ) (p : SParams) (nobs : Nobs) : Except String LimVal :=
  (p.se table nobs).map (fun sev =>
    match sev with
    | LimVal.scalar v => LimVal.scalar (max (p.target - p.nsigma * v) 0)
    | LimVal.series s => LimVal.series (s.map (fun e => (e.1, max (p.target - p.nsigma * e.2) 0))))

/-- Embedding of `SParams.ucl`: `target() + nsigma * se(nobs)`. -/
noncomputable def SParams.ucl (table : List ℝ) (p : SParams) (nobs : Nobs) : Except String LimVal :=
  (p.se table nobs).map (fun sev =>
    match sev with
    | LimVal.scalar v => LimVal.scalar (p.target + p.nsigma * v)
    | LimVal.series s => LimVal.series (s.map (fun e => (e.1, p.target + p.nsigma * e.2))))

/-- Embedding of `XBarParams.target` as written in the source: the body
is `return self.centre - self.nsigma * self.se(nobs)`, where `nobs` is a
free name bound nowhere in `mqr.spc.lib.control` (not a parameter, not a
module global, not a builtin), so every call raises `NameError`. -/
def XBarParams.target (_ : XBarParams) : Except String ℝ :=
  Except.error "NameError: name nobs is not defined"

/-- Embedding of `EwmaParams` (fields `mu_0`, `sigma`, `lmda`, `L`,
`steady_state`; the `name` field is presentation-only and omitted). -/
structure EwmaParams where
  mu_0 : ℝ
  sigma : ℝ
  lmda : ℝ
  L : ℝ
  steady_state : Bool

/-- Square-root factor shared verbatim by the bodies of `EwmaParams.lcl`
and `EwmaParams.ucl`: `np.sqrt(lmda / (2 - lmda))` in steady state, and
otherwise `np.sqrt(lmda / (2 - lmda) * (1 - (1 - lmda)**(2 * Ns)))`,
where `Ns = nobs.index.to_series()` — the factor at each position is a
function of that position's pandas index value `i` (embedded as `ℕ`),
not of its 0-based position. -/
noncomputable def EwmaParams.sqrt_term (p : EwmaParams) (i : ℕ) : ℝ :=
  if p.steady_state then
    Real.sqrt (p.lmda / (2 - p.lmda))
  else
    Real.sqrt (p.lmda / (2 - p.lmda) * (1 - (1 - p.lmda) ^ (2 * i)))

/-- Embedding of `EwmaParams.lcl`:
`mu_0 - L * stderr * sqrt_term` with `stderr = sigma / np.sqrt(nobs)`.
The method evaluates `nobs.index.to_series()`, so a scalar `nobs`
raises `AttributeError`; a series yields a series on the same index. -/
noncomputable def EwmaParams.lcl (p : EwmaParams) : Nobs → Except String LimVal
  | Nobs.scalar _ => Except.error "AttributeError: scalar nobs has no attribute index"
  | Nobs.series s =>
      Except.ok (LimVal.series (s.map (fun e =>
        (e.1, p.mu_0 - p.L * (p.sigma / Real.sqrt ((e.2 : ℤ) : ℝ)) * p.sqrt_term e.1))))

/-- Embedding of `EwmaParams.ucl`:
`mu_0 + L * stderr * sqrt_term`, structured exactly as `lcl`. -/
noncomputable def EwmaParams.ucl (p : EwmaParams) : Nobs → Except String LimVal
  | Nobs.scalar _ => Except.error "AttributeError: scalar nobs has no attribute index"
  | Nobs.series s =>
      Except.ok (LimVal.series (s.map (fun e =>
        (e.1, p.mu_0 + p.L * (p.sigma / Real.sqrt ((e.2 : ℤ) : ℝ)) * p.sqrt_term e.1))))

/-- Embedding of `MewmaParams` for process dimension `m` (fields `mu`,
`cov`, `lmda`, `limit`). -/
structure MewmaParams (m : ℕ) where
  mu : Fin m → ℝ
  cov : Matrix (Fin m) (Fin m) ℝ
  lmda : ℝ
  limit : ℝ

/-- Embedding of `MewmaParams.target`: always zero. -/
def MewmaParams.target {m : ℕ} (_ : MewmaParams m) : ℝ :=
  0

/-- Embedding of `MewmaParams.lcl`: always Python `None`, for any
`nobs` whatsoever. -/
def MewmaParams.lcl {m : ℕ} (_ : MewmaParams m) (_ : Nobs) : Option LimVal :=
  none

/-- Embedding of `MewmaParams.ucl`:
`pd.Series(self.limit, index=nobs.index)` — a series constant at
`limit` on the index of `nobs`; a scalar `nobs` has no `.index` and
raises `AttributeError`. -/
def MewmaParams.ucl {m : ℕ} (p : MewmaParams m) : Nobs → Except String LimVal
  | Nobs.scalar _ => Except.error "AttributeError: scalar nobs has no attribute index"
  | Nobs.series s => Except.ok (LimVal.series (s.map (fun e => (e.1, p.limit))))

/-- Embedding of `MewmaParams._cov_z`:
`lmda / (2 - lmda) * (1 - (1 - lmda)**(2 * i+1)) * cov`.  Python
operator precedence parses the exponent `2 * i+1` as `(2 * i) + 1`, and
that is what this definition reproduces. -/
noncomputable def MewmaParams.cov_z {m : ℕ} (p : MewmaParams m) (i : ℕ) :
    Matrix (Fin m) (Fin m) ℝ :=
  (p.lmda / (2 - p.lmda) * (1 - (1 - p.lmda) ^ (2 * i + 1))) • p.cov

/-- Embedding of `MewmaParams._t2_stat`:
`z_0.T @ np.linalg.inv(self._cov_z(i)) @ z_0` with `z_0 = z - mu`. -/
noncomputable def MewmaParams.t2_stat {m : ℕ} (p : MewmaParams m) (z : Fin m → ℝ) (i : ℕ) : ℝ :=
  Matrix.dotProduct (z - p.mu) (Matrix.mulVec (p.cov_z i)⁻¹ (z - p.mu))

/-- Exponentially weighted moving average scan of
`ewm(alpha=lmda, adjust=False).mean()` seeded at `zprev`: the recurrence
`z_t = (1 - lmda) * z_(t-1) + lmda * x_t`. -/
noncomputable def ewmaScan {m : ℕ} (lmda : ℝ) (zprev : Fin m → ℝ) :
    List (Fin m → ℝ) → List (Fin m → ℝ)
  | [] => []
  | x :: xs =>
      let z := fun j => (1 - lmda) * zprev j + lmda * x j
      z :: ewmaScan lmda z xs

/-- Embedding of `MewmaParams.statistic` restricted to its stat series:
the EWMA state seeded at `mu` is scanned over the sample rows, and row
`i` (0-based) contributes `_t2_stat(z_i, i)`. -/
noncomputable def MewmaParams.statistic {m : ℕ} (p : MewmaParams m)
    (samples : List (Fin m → ℝ)) : List ℝ :=
  (ewmaScan p.lmda p.mu samples).mapIdx (fun i z => p.t2_stat z i)

/-! ### Alarm rules (`mqr.spc.rules`) -/

/-- Pointwise embedding of the pandas comparison `stat >= ucl`, where
`ucl` is what `control_params.ucl(nobs)` returned: a series aligned with
`stat` (compared positionally here, the indices being shared), or
Python `None`.  pandas compares a numeric series against the NA scalar
`None` as all-`False` for every operator except `!=`, so a `None` limit
contributes no alarms. -/
noncomputable def geBeyond (stat : List ℝ) : Option (List ℝ) → List Bool
  | none => stat.map (fun _ => false)
  | some u => List.zipWith (fun a b => decide (b ≤ a)) stat u

/-- Pointwise embedding of `stat <= lcl`, mirroring `geBeyond`. -/
noncomputable def leBeyond (stat : List ℝ) : Option (List ℝ) → List Bool
  | none => stat.map (fun _ => false)
  | some l => List.zipWith (fun a b => decide (a ≤ b)) stat l

/-- Embedding of `mqr.spc.rules.limits`:
`np.logical_or(stat >= ucl, stat <= lcl)` where
`lcl = control_params.lcl(nobs)` and `ucl = control_params.ucl(nobs)`
are passed here as the already-computed limit series (or `none` for a
variant whose limit method returns Python `None`). -/
noncomputable def limits (stat : List ℝ) (lcl ucl : Option (List ℝ)) : List Bool :=
  List.zipWith (fun a b => a || b) (geBeyond stat ucl) (leBeyond stat lcl)

/-! ### Fredholm solver (`mqr.utils.fredholm2`) -/

/-- Embedding of `mqr.utils.fredholm2`.  After the length guard, the
code builds `K[i, j] = w[j] * fn_K(x[i], x[j])`, fills the right-hand
side with `g[i] = fn_g(i)` — evaluating `fn_g` at the integer loop
index `i`, not at the node `x[i]` — solves
`(I - lmda * K) L = g` (`np.linalg.solve`; the nonsingular case is
modelled, numpy raising on a singular system), and returns the Nystrom
interpolation `fn_g(t0) + lmda * sum(w * L * fn_K(t0, x))`. -/
noncomputable def fredholm2 (t0 : ℝ) (fn_K : ℝ → ℝ → ℝ) (fn_g : ℝ → ℝ) (lmda : ℝ)
    (x w : List ℝ) : Except String ℝ :=
  if h : x.length = w.length then
    let xv : Fin x.length → ℝ := fun i => x.get i
    let wv : Fin x.length → ℝ := fun i => w.get (Fin.cast h i)
    let g : Fin x.length → ℝ := fun i => fn_g ((i : ℕ) : ℝ)
    let K : Matrix (Fin x.length) (Fin x.length) ℝ := fun i j => wv j * fn_K (xv i) (xv j)
    let L : Fin x.length → ℝ := Matrix.mulVec (1 - lmda • K)⁻¹ g
    Except.ok (fn_g t0 + lmda * ∑ j, wv j * L j * fn_K t0 (xv j))
  else
    Except.error "Vectors x and w must be the same length."

/-- Comparator for the claim about `fredholm2`, following the spec
sentence: identical to the embedding of the source except that the
right-hand side is `g` evaluated at the quadrature nodes,
`g[i] = fn_g(x[i])`. -/
noncomputable def fredholm2Spec (t0 : ℝ) (fn_K : ℝ → ℝ → ℝ) (fn_g : ℝ → ℝ) (lmda : ℝ)
    (x w : List ℝ) : Except String ℝ :=
  if h : x.length = w.length then
    let xv : Fin x.length → ℝ := fun i => x.get i
    let wv : Fin x.length → ℝ := fun i => w.get (Fin.cast h i)
    let g : Fin x.length → ℝ := fun i => fn_g (xv i)
    let K : Matrix (Fin x.length) (Fin x.length) ℝ := fun i j => wv j * fn_K (xv i) (xv j)
    let L : Fin x.length → ℝ := Matrix.mulVec (1 - lmda • K)⁻¹ g
    Except.ok (fn_g t0 + lmda * ∑ j, wv j * L j * fn_K t0 (xv j))
  else
    Except.error "Vectors x and w must be the same length."

/-! ### Concrete instances used by counterexamples and witnesses -/

/-- EWMA parameters `mu_0 = 0`, `sigma = 1`, `lmda = 1/2`, `L = 2`, not
in steady state; used to exhibit the behaviour of the transient limit
formula on a 0-based index. -/
noncomputable def ewmaCE : EwmaParams :=
  ⟨0, 1, 1 / 2, 2, false⟩

/-- MEWMA parameters in dimension 1 with `mu = 0`, `cov` the identity,
`lmda = 1/2`, `limit = 10`; used to evaluate `_cov_z` at the first
sample. -/
noncomputable def mewmaBug : MewmaParams 1 :=
  ⟨fun _ => 0, 1, 1 / 2, 10⟩

/-- XBar parameters `centre = 1`, `sigma = 1`, `nsigma = 3`; used to
evaluate the limit methods at a concrete input. -/
noncomputable def xbarBug : XBarParams :=
  ⟨1, 1, 3⟩

/-- Bias-constant table of the right length (99 entries) with opaque
constant contents, standing in for the pickled tables in witnesses. -/
noncomputable def tblW : List ℝ :=
  List.replicate 99 1

/-- R-chart parameters `centre = 4`, `sigma = 1`, `nsigma = 3` used in
witnesses. -/
noncomputable def rParamsW : RParams :=
  ⟨4, 1, 3⟩

/-- S-chart parameters `centre = 1`, `nsigma = 3` used in witnesses. -/
noncomputable def sParamsW : SParams :=
  ⟨1, 3⟩

/-! ### Helper lemmas -/

lemma lookup_ok (table : List α) (idx : ℕ) (h : idx < table.length) :
    lookup idx table = Except.ok (table.get ⟨idx, h⟩) := by
  unfold lookup
  rw [List.get?_eq_getElem?, List.getElem?_eq_getElem h]
  simp [List.get_eq_getElem]

lemma toNat_sub_two_lt {n : ℤ} (h2 : 2 ≤ n) (h100 : n ≤ 100) (table : List α)
    (h99 : table.length = 99) : (n - 2).toNat < table.length := by
  omega

lemma c4_in_range (table : List α) (n : ℤ) (h2 : 2 ≤ n) (h100 : n ≤ 100)
    (h99 : table.length = 99) :
    c4 table n = Except.ok (table.get ⟨(n - 2).toNat, toNat_sub_two_lt h2 h100 table h99⟩) := by
  rw [c4, if_neg (by omega)]
  exact lookup_ok table _ _

lemma d2_in_range (table : List α) (n : ℤ) (h2 : 2 ≤ n) (h100 : n ≤ 100)
    (h99 : table.length = 99) :
    d2 table n = Except.ok (table.get ⟨(n - 2).toNat, toNat_sub_two_lt h2 h100 table h99⟩) := by
  rw [d2, if_neg (by omega)]
  exact lookup_ok table _ _

lemma d3_in_range (table : List α) (n : ℤ) (h2 : 2 ≤ n) (h100 : n ≤ 100)
    (h99 : table.length = 99) :
    d3 table n = Except.ok (table.get ⟨(n - 2).toNat, toNat_sub_two_lt h2 h100 table h99⟩) := by
  rw [d3, if_neg (by omega)]
  exact lookup_ok table _ _

lemma mapM_lookup_ok (table : List α) (h99 : table.length = 99) :
    ∀ ns : List (ℕ × ℤ), (∀ e ∈ ns, 2 ≤ e.2 ∧ e.2 ≤ 100) →
    ∃ l, ns.mapM (fun e => (lookup (e.2 - 2).toNat table).map (fun v => (e.1, v)))
           = Except.ok l ∧
         List.Forall₂ (fun e r => e.1 = r.1 ∧ table.get? (e.2 - 2).toNat = some r.2) ns l := by
  intro ns
  induction ns with
  | nil =>
      intro _
      exact ⟨[], rfl, List.Forall₂.nil⟩
  | cons e es ih =>
      intro hall
      obtain ⟨h2, h100⟩ := hall e (List.mem_cons_self e es)
      obtain ⟨l, hl, hfa⟩ := ih (fun x hx => hall x (List.mem_cons_of_mem e hx))
      have hidx : (e.2 - 2).toNat < table.length := by omega
      refine ⟨(e.1, table.get ⟨(e.2 - 2).toNat, hidx⟩) :: l, ?_, ?_⟩
      · rw [List.mapM_cons, lookup_ok table _ hidx, hl]
        rfl
      · exact List.Forall₂.cons
          ⟨rfl, by rw [List.get?_eq_getElem?, List.getElem?_eq_getElem hidx]; simp⟩ hfa

lemma series_any_out (ns : List (ℕ × ℤ)) (h : ∃ e ∈ ns, e.2 < 2 ∨ 100 < e.2) :
    (ns.any (fun e => decide (e.2 < 2) || decide (100 < e.2))) = true := by
  obtain ⟨e, he, hout⟩ := h
  simp only [List.any_eq_true]
  exact ⟨e, he, by simpa using hout⟩

lemma series_none_out (ns : List (ℕ × ℤ)) (h : ∀ e ∈ ns, 2 ≤ e.2 ∧ e.2 ≤ 100) :
    (ns.any (fun e => decide (e.2 < 2) || decide (100 < e.2))) = false := by
  simp only [List.any_eq_false]
  intro e he
  have := h e he
  simpa using by omega

lemma map_map_fst {β γ δ : Type} (s : List (β × γ)) (f : β × γ → δ) :
    (s.map (fun e => (e.1, f e))).map Prod.fst = s.map Prod.fst := by
  rw [List.map_map]
  rfl

lemma forall₂_fst_eq {P : ℕ × ℤ → ℕ × α → Prop} :
    ∀ {ns : List (ℕ × ℤ)} {l : List (ℕ × α)},
      List.Forall₂ (fun e r => e.1 = r.1 ∧ P e r) ns l →
      l.map Prod.fst = ns.map Prod.fst
  | _, _, List.Forall₂.nil => rfl
  | _, _, List.Forall₂.cons h hs => by
      simp only [List.map_cons, forall₂_fst_eq hs, h.1]

/-! ### Theorems settling the claims -/

/-- C8: for every `MewmaParams` and every `nobs` series, `lcl(nobs)` is
always `None`, `target()` is always `0`, and `ucl(nobs)` is a series on
the same index as `nobs`, constant across `nobs`, equal at every
position to the `limit` field. -/
theorem mewma_limits_constant {m : ℕ} (p : MewmaParams m) (s : List (ℕ × ℤ)) :
    p.lcl (Nobs.series s) = none ∧ p.target = 0 ∧
    ∃ u : List (ℕ × ℝ), p.ucl (Nobs.series s) = Except.ok (LimVal.series u) ∧
      u.map Prod.fst = s.map Prod.fst ∧
      u.map Prod.snd = List.replicate s.length p.limit := by
  refine ⟨rfl, rfl, s.map (fun e => (e.1, p.limit)), ?_, ?_, ?_⟩
  · rfl
  · exact map_map_fst s (fun _ => p.limit)
  rw [List.map_map]
  induction s with
  | nil => rfl
  | cons e es ih =>
      simp only [List.map_cons, List.length_cons, List.replicate_succ]
      exact congrArg (List.cons p.limit) ih

/-- C10: for every table, `r_bar`, `nobs` in `[2, 100]` and `nsigma`
argument, `RParams.from_range(r_bar, nobs, nsigma)` returns an
`RParams` with `centre = r_bar`, `sigma = r_bar / d2(nobs)`, and an
`nsigma` field equal to the literal `3`, whatever `nsigma` the caller
passed. -/
theorem from_range_forces_nsigma (table : List ℝ) (h99 : table.length = 99) (r_bar : ℝ)
    (n : ℤ) (h2 : 2 ≤ n) (h100 : n ≤ 100) (ns : ℝ) :
    ∃ v : ℝ, d2 table n = Except.ok v ∧
      RParams.from_range table r_bar n ns = Except.ok ⟨r_bar, r_bar / v, 3⟩ := by
  refine ⟨table.get ⟨(n - 2).toNat, toNat_sub_two_lt h2 h100 table h99⟩,
    d2_in_range table n h2 h100 h99, ?_⟩
  unfold RParams.from_range
  rw [d2_in_range table n h2 h100 h99]
  rfl

/-- Witness for C10 at `table = tblW`, `r_bar = 2`, `nobs = 5`,
`nsigma = 7`. -/
theorem from_range_forces_nsigma_witness :
    tblW.length = 99 ∧ (2 : ℤ) ≤ 5 ∧ (5 : ℤ) ≤ 100 ∧
    ∃ v : ℝ, d2 tblW 5 = Except.ok v ∧
      RParams.from_range tblW 2 5 7 = Except.ok ⟨2, 2 / v, 3⟩ :=
  ⟨by simp [tblW], by decide, by decide,
    from_range_forces_nsigma tblW (by simp [tblW]) 2 5 (by decide) (by decide) 7⟩

/-- C7: `c4(n)`, `d2(n)` and `d3(n)` raise the range `ValueError`
whenever `n` (scalar) or any element of `n` (series) is outside
`[2, 100]` inclusive, never clamping, and otherwise return the table
entry at array index `n - 2` (for a series: elementwise, preserving the
index). -/
theorem bias_lookup_range_check (table : List α) (h99 : table.length = 99) (n : ℤ)
    (ns : List (ℕ × ℤ)) :
    ((n < 2 ∨ 100 < n) →
      c4 table n = Except.error "Sample size n must be between 2 and 100." ∧
      d2 table n = Except.error "Sample size n must be between 2 and 100." ∧
      d3 table n = Except.error "Sample size n must be between 2 and 100.") ∧
    (2 ≤ n → n ≤ 100 →
      ∃ v, table.get? (n - 2).toNat = some v ∧
        c4 table n = Except.ok v ∧ d2 table n = Except.ok v ∧ d3 table n = Except.ok v) ∧
    ((∃ e ∈ ns, e.2 < 2 ∨ 100 < e.2) →
      c4Series table ns = Except.error "Sample size n must be between 2 and 100." ∧
      d2Series table ns = Except.error "Sample size n must be between 2 and 100." ∧
      d3Series table ns = Except.error "Sample size n must be between 2 and 100.") ∧
    ((∀ e ∈ ns, 2 ≤ e.2 ∧ e.2 ≤ 100) →
      ∃ l, c4Series table ns = Except.ok l ∧ d2Series table ns = Except.ok l ∧
        d3Series table ns = Except.ok l ∧
        List.Forall₂ (fun e r => e.1 = r.1 ∧ table.get? (e.2 - 2).toNat = some r.2) ns l) := by
  refine ⟨fun h => ⟨?_, ?_, ?_⟩, fun h2 h100 => ?_, fun h => ⟨?_, ?_, ?_⟩, fun h => ?_⟩
  · rw [c4, if_pos h]
  · rw [d2, if_pos h]
  · rw [d3, if_pos h]
  · have hidx : (n - 2).toNat < table.length := by omega
    refine ⟨table.get ⟨(n - 2).toNat, hidx⟩, ?_, c4_in_range table n h2 h100 h99,
      d2_in_range table n h2 h100 h99, d3_in_range table n h2 h100 h99⟩
    rw [List.get?_eq_getElem?, List.getElem?_eq_getElem hidx]
    simp [List.get_eq_getElem]
  · simp [c4Series, series_any_out ns h]
  · simp [d2Series, series_any_out ns h]
  · simp [d3Series, series_any_out ns h]
  · obtain ⟨l, hl, hfa⟩ := mapM_lookup_ok table h99 ns h
    exact ⟨l, by rw [c4Series, series_none_out ns h, if_neg (by simp)]; exact hl,
      by rw [d2Series, series_none_out ns h, if_neg (by simp)]; exact hl,
      by rw [d3Series, series_none_out ns h, if_neg (by simp)]; exact hl, hfa⟩

/-- Witness for C7 at a concrete 99-entry table, scalar `n = 5` and the
series `[(1, 3)]`. -/
theorem bias_lookup_range_check_witness :
    (List.replicate 99 (0 : ℕ)).length = 99 ∧
    ((((5 : ℤ) < 2 ∨ 100 < (5 : ℤ)) →
      c4 (List.replicate 99 (0 : ℕ)) 5 = Except.error "Sample size n must be between 2 and 100." ∧
      d2 (List.replicate 99 (0 : ℕ)) 5 = Except.error "Sample size n must be between 2 and 100." ∧
      d3 (List.replicate 99 (0 : ℕ)) 5 = Except.error "Sample size n must be between 2 and 100.") ∧
    ((2 : ℤ) ≤ 5 → (5 : ℤ) ≤ 100 →
      ∃ v, (List.replicate 99 (0 : ℕ)).get? ((5 : ℤ) - 2).toNat = some v ∧
        c4 (List.replicate 99 (0 : ℕ)) 5 = Except.ok v ∧
        d2 (List.replicate 99 (0 : ℕ)) 5 = Except.ok v ∧
        d3 (List.replicate 99 (0 : ℕ)) 5 = Except.ok v) ∧
    ((∃ e ∈ [((1 : ℕ), (3 : ℤ))], e.2 < 2 ∨ 100 < e.2) →
      c4Series (List.replicate 99 (0 : ℕ)) [(1, 3)] =
        Except.error "Sample size n must be between 2 and 100." ∧
      d2Series (List.replicate 99 (0 : ℕ)) [(1, 3)] =
        Except.error "Sample size n must be between 2 and 100." ∧
      d3Series (List.replicate 99 (0 : ℕ)) [(1, 3)] =
        Except.error "Sample size n must be between 2 and 100.") ∧
    ((∀ e ∈ [((1 : ℕ), (3 : ℤ))], 2 ≤ e.2 ∧ e.2 ≤ 100) →
      ∃ l, c4Series (List.replicate 99 (0 : ℕ)) [(1, 3)] = Except.ok l ∧
        d2Series (List.replicate 99 (0 : ℕ)) [(1, 3)] = Except.ok l ∧
        d3Series (List.replicate 99 (0 : ℕ)) [(1, 3)] = Except.ok l ∧
        List.Forall₂
          (fun e r => e.1 = r.1 ∧ (List.replicate 99 (0 : ℕ)).get? (e.2 - 2).toNat = some r.2)
          ([((1 : ℕ), (3 : ℤ))] : List (ℕ × ℤ)) l)) :=
  ⟨by simp, bias_lookup_range_check (List.replicate 99 (0 : ℕ)) (by simp) 5 [(1, 3)]⟩

lemma getD_zipWith {β γ δ : Type} (f : β → γ → δ) (d : δ) (db : β) (dc : γ) :
    ∀ (bs : List β) (cs : List γ) (t : ℕ), t < bs.length → t < cs.length →
      (List.zipWith f bs cs).getD t d = f (bs.getD t db) (cs.getD t dc)
  | [], _, t, hb, _ => absurd hb (by simp)
  | _ :: _, [], t, _, hc => absurd hc (by simp)
  | b :: bs, c :: cs, 0, _, _ => rfl
  | b :: bs, c :: cs, t + 1, hb, hc => by
      simp only [List.zipWith_cons_cons, List.getD_cons_succ]
      exact getD_zipWith f d db dc bs cs t (by simpa using hb) (by simpa using hc)

lemma getD_map_const {β : Type} (bs : List β) (t : ℕ) :
    (bs.map (fun _ => false)).getD t false = false := by
  induction bs generalizing t with
  | nil => simp
  | cons b bs ih =>
      cases t with
      | zero => rfl
      | succ t => rw [List.map_cons, List.getD_cons_succ]; exact ih t

/-- C9 counterexample: the EWMA and MEWMA limit methods do not accept a
scalar `nobs`: they evaluate `nobs.index`, which raises
`AttributeError` for a scalar, instead of returning a scalar limit. -/
theorem ewma_scalar_nobs_counterexample :
    ewmaCE.lcl (Nobs.scalar 4) =
      Except.error "AttributeError: scalar nobs has no attribute index" ∧
    ewmaCE.ucl (Nobs.scalar 4) =
      Except.error "AttributeError: scalar nobs has no attribute index" ∧
    mewmaBug.ucl (Nobs.scalar 4) =
      Except.error "AttributeError: scalar nobs has no attribute index" :=
  ⟨rfl, rfl, rfl⟩

/-- C9 (amended): the Shewhart-family methods — `XBarParams.se`/`ucl`,
`RParams.se`/`lcl`/`ucl`, `SParams.se`/`lcl`/`ucl` — accept `nobs` as a
scalar or a series, returning a scalar for a scalar and a series
aligned to the input index for a series (when the bias-constant lookups
are in range); `XBarParams.lcl` and `MewmaParams.lcl` return `None` for
any `nobs`; `EwmaParams.lcl`/`ucl` and `MewmaParams.ucl` require a
series `nobs` (scalar input raises `AttributeError`) and return a
series aligned to the input index. -/
theorem nobs_shapes (table : List ℝ) (h99 : table.length = 99)
    (px : XBarParams) (pr : RParams) (ps : SParams) (pe : EwmaParams) {m : ℕ}
    (pm : MewmaParams m) (n : ℤ) (h2 : 2 ≤ n) (h100 : n ≤ 100)
    (s : List (ℕ × ℤ)) (hs : ∀ e ∈ s, 2 ≤ e.2 ∧ e.2 ≤ 100) :
    (∃ v, px.se (Nobs.scalar n) = LimVal.scalar v) ∧
    (∃ l, px.se (Nobs.series s) = LimVal.series l ∧ l.map Prod.fst = s.map Prod.fst) ∧
    (∃ v, px.ucl (Nobs.scalar n) = LimVal.scalar v) ∧
    (∃ l, px.ucl (Nobs.series s) = LimVal.series l ∧ l.map Prod.fst = s.map Prod.fst) ∧
    px.lcl (Nobs.scalar n) = none ∧ px.lcl (Nobs.series s) = none ∧
    (∃ v, pr.se table (Nobs.scalar n) = Except.ok (LimVal.scalar v)) ∧
    (∃ l, pr.se table (Nobs.series s) = Except.ok (LimVal.series l) ∧
      l.map Prod.fst = s.map Prod.fst) ∧
    (∃ v, pr.lcl table (Nobs.scalar n) = Except.ok (LimVal.scalar v)) ∧
    (∃ l, pr.lcl table (Nobs.series s) = Except.ok (LimVal.series l) ∧
      l.map Prod.fst = s.map Prod.fst) ∧
    (∃ v, pr.ucl table (Nobs.scalar n) = Except.ok (LimVal.scalar v)) ∧
    (∃ l, pr.ucl table (Nobs.series s) = Except.ok (LimVal.series l) ∧
      l.map Prod.fst = s.map Prod.fst) ∧
    (∃ v, ps.se table (Nobs.scalar n) = Except.ok (LimVal.scalar v)) ∧
    (∃ l, ps.se table (Nobs.series s) = Except.ok (LimVal.series l) ∧
      l.map Prod.fst = s.map Prod.fst) ∧
    (∃ v, ps.lcl table (Nobs.scalar n) = Except.ok (LimVal.scalar v)) ∧
    (∃ l, ps.lcl table (Nobs.series s) = Except.ok (LimVal.series l) ∧
      l.map Prod.fst = s.map Prod.fst) ∧
    (∃ v, ps.ucl table (Nobs.scalar n) = Except.ok (LimVal.scalar v)) ∧
    (∃ l, ps.ucl table (Nobs.series s) = Except.ok (LimVal.series l) ∧
      l.map Prod.fst = s.map Prod.fst) ∧
    (∃ msg, pe.lcl (Nobs.scalar n) = Except.error msg) ∧
    (∃ l, pe.lcl (Nobs.series s) = Except.ok (LimVal.series l) ∧
      l.map Prod.fst = s.map Prod.fst) ∧
    (∃ msg, pe.ucl (Nobs.scalar n) = Except.error msg) ∧
    (∃ l, pe.ucl (Nobs.series s) = Except.ok (LimVal.series l) ∧
      l.map Prod.fst = s.map Prod.fst) ∧
    (∃ msg, pm.ucl (Nobs.scalar n) = Except.error msg) ∧
    (∃ l, pm.ucl (Nobs.series s) = Except.ok (LimVal.series l) ∧
      l.map Prod.fst = s.map Prod.fst) ∧
    pm.lcl (Nobs.scalar n) = none ∧ pm.lcl (Nobs.series s) = none := by
  obtain ⟨v3, hv3⟩ : ∃ v, d3 table n = Except.ok v :=
    ⟨_, d3_in_range table n h2 h100 h99⟩
  obtain ⟨v4, hv4⟩ : ∃ v, c4 table n = Except.ok v :=
    ⟨_, c4_in_range table n h2 h100 h99⟩
  obtain ⟨l0, hl0, hfa⟩ := mapM_lookup_ok table h99 s hs
  have hd3s : d3Series table s = Except.ok l0 := by
    rw [d3Series, series_none_out s hs, if_neg (by simp)]
    exact hl0
  have hc4s : c4Series table s = Except.ok l0 := by
    rw [c4Series, series_none_out s hs, if_neg (by simp)]
    exact hl0
  have hfst : l0.map Prod.fst = s.map Prod.fst := forall₂_fst_eq hfa
  have hRse : pr.se table (Nobs.scalar n) = Except.ok (LimVal.scalar (v3 * pr.sigma)) := by
    simp only [RParams.se, hv3, Except.map]
  have hRseS : pr.se table (Nobs.series s) =
      Except.ok (LimVal.series (l0.map (fun e => (e.1, e.2 * pr.sigma)))) := by
    simp only [RParams.se, hd3s, Except.map]
  have hSse : ps.se table (Nobs.scalar n) =
      Except.ok (LimVal.scalar (ps.centre * Real.sqrt (1 - v4 ^ 2) / v4)) := by
    simp only [SParams.se, hv4, Except.map]
  have hSseS : ps.se table (Nobs.series s) =
      Except.ok (LimVal.series
        (l0.map (fun e => (e.1, ps.centre * Real.sqrt (1 - e.2 ^ 2) / e.2)))) := by
    simp only [SParams.se, hc4s, Except.map]
  refine ⟨?_, ?_, ?_, ?_, rfl, rfl, ?_, ?_, ?_, ?_, ?_, ?_, ?_, ?_, ?_, ?_, ?_, ?_,
    ?_, ?_, ?_, ?_, ?_, ?_, rfl, rfl⟩
  · exact ⟨_, rfl⟩
  · refine ⟨_, rfl, ?_⟩
    simp only [map_map_fst]
  · exact ⟨_, rfl⟩
  · refine ⟨_, rfl, ?_⟩
    simp only [map_map_fst]
  · exact ⟨_, hRse⟩
  · refine ⟨_, hRseS, ?_⟩
    simp only [map_map_fst]
    exact hfst
  · refine ⟨max (pr.centre - pr.nsigma * (v3 * pr.sigma)) 0, ?_⟩
    rw [RParams.lcl, hRse]
    rfl
  · refine ⟨(l0.map (fun e => (e.1, e.2 * pr.sigma))).map
        (fun e => (e.1, max (pr.centre - pr.nsigma * e.2) 0)), ?_, ?_⟩
    · rw [RParams.lcl, hRseS]
      rfl
    · simp only [map_map_fst]
      exact hfst
  · refine ⟨pr.centre + pr.nsigma * (v3 * pr.sigma), ?_⟩
    rw [RParams.ucl, hRse]
    rfl
  · refine ⟨(l0.map (fun e => (e.1, e.2 * pr.sigma))).map
        (fun e => (e.1, pr.centre + pr.nsigma * e.2)), ?_, ?_⟩
    · rw [RParams.ucl, hRseS]
      rfl
    · simp only [map_map_fst]
      exact hfst
  · exact ⟨_, hSse⟩
  · refine ⟨_, hSseS, ?_⟩
    simp only [map_map_fst]
    exact hfst
  · refine ⟨max (ps.target - ps.nsigma * (ps.centre * Real.sqrt (1 - v4 ^ 2) / v4)) 0, ?_⟩
    rw [SParams.lcl, hSse]
    rfl
  · refine ⟨(l0.map (fun e => (e.1, ps.centre * Real.sqrt (1 - e.2 ^ 2) / e.2))).map
        (fun e => (e.1, max (ps.target - ps.nsigma * e.2) 0)), ?_, ?_⟩
    · rw [SParams.lcl, hSseS]
      rfl
    · simp only [map_map_fst]
      exact hfst
  · refine ⟨ps.target + ps.nsigma * (ps.centre * Real.sqrt (1 - v4 ^ 2) / v4), ?_⟩
    rw [SParams.ucl, hSse]
    rfl
  · refine ⟨(l0.map (fun e => (e.1, ps.centre * Real.sqrt (1 - e.2 ^ 2) / e.2))).map
        (fun e => (e.1, ps.target + ps.nsigma * e.2)), ?_, ?_⟩
    · rw [SParams.ucl, hSseS]
      rfl
    · simp only [map_map_fst]
      exact hfst
  · exact ⟨_, rfl⟩
  · refine ⟨_, rfl, ?_⟩
    simp only [map_map_fst]
  · exact ⟨_, rfl⟩
  · refine ⟨_, rfl, ?_⟩
    simp only [map_map_fst]
  · exact ⟨_, rfl⟩
  · refine ⟨_, rfl, ?_⟩
    simp only [map_map_fst]

/-- Witness for C9 at a concrete table and parameters, scalar
`nobs = 5` and the series `[(1, 4)]`. -/
theorem nobs_shapes_witness :
    tblW.length = 99 ∧ (2 : ℤ) ≤ 5 ∧ (5 : ℤ) ≤ 100 ∧
    (∀ e ∈ ([((1 : ℕ), (4 : ℤ))] : List (ℕ × ℤ)), 2 ≤ e.2 ∧ e.2 ≤ 100) ∧
    (
    (∃ v, xbarBug.se (Nobs.scalar 5) = LimVal.scalar v) ∧
    (∃ l, xbarBug.se (Nobs.series [((1 : ℕ), (4 : ℤ))]) = LimVal.series l ∧ l.map Prod.fst = ([((1 : ℕ), (4 : ℤ))] : List (ℕ × ℤ)).map Prod.fst) ∧
    (∃ v, xbarBug.ucl (Nobs.scalar 5) = LimVal.scalar v) ∧
    (∃ l, xbarBug.ucl (Nobs.series [((1 : ℕ), (4 : ℤ))]) = LimVal.series l ∧ l.map Prod.fst = ([((1 : ℕ), (4 : ℤ))] : List (ℕ × ℤ)).map Prod.fst) ∧
    xbarBug.lcl (Nobs.scalar 5) = none ∧ xbarBug.lcl (Nobs.series [((1 : ℕ), (4 : ℤ))]) = none ∧
    (∃ v, RParams.se tblW rParamsW (Nobs.scalar 5) = Except.ok (LimVal.scalar v)) ∧
    (∃ l, RParams.se tblW rParamsW (Nobs.series [((1 : ℕ), (4 : ℤ))]) = Except.ok (LimVal.series l) ∧
      l.map Prod.fst = ([((1 : ℕ), (4 : ℤ))] : List (ℕ × ℤ)).map Prod.fst) ∧
    (∃ v, RParams.lcl tblW rParamsW (Nobs.scalar 5) = Except.ok (LimVal.scalar v)) ∧
    (∃ l, RParams.lcl tblW rParamsW (Nobs.series [((1 : ℕ), (4 : ℤ))]) = Except.ok (LimVal.series l) ∧
      l.map Prod.fst = ([((1 : ℕ), (4 : ℤ))] : List (ℕ × ℤ)).map Prod.fst) ∧
    (∃ v, RParams.ucl tblW rParamsW (Nobs.scalar 5) = Except.ok (LimVal.scalar v)) ∧
    (∃ l, RParams.ucl tblW rParamsW (Nobs.series [((1 : ℕ), (4 : ℤ))]) = Except.ok (LimVal.series l) ∧
      l.map Prod.fst = ([((1 : ℕ), (4 : ℤ))] : List (ℕ × ℤ)).map Prod.fst) ∧
    (∃ v, SParams.se tblW sParamsW (Nobs.scalar 5) = Except.ok (LimVal.scalar v)) ∧
    (∃ l, SParams.se tblW sParamsW (Nobs.series [((1 : ℕ), (4 : ℤ))]) = Except.ok (LimVal.series l) ∧
      l.map Prod.fst = ([((1 : ℕ), (4 : ℤ))] : List (ℕ × ℤ)).map Prod.fst) ∧
    (∃ v, SParams.lcl tblW sParamsW (Nobs.scalar 5) = Except.ok (LimVal.scalar v)) ∧
    (∃ l, SParams.lcl tblW sParamsW (Nobs.series [((1 : ℕ), (4 : ℤ))]) = Except.ok (LimVal.series l) ∧
      l.map Prod.fst = ([((1 : ℕ), (4 : ℤ))] : List (ℕ × ℤ)).map Prod.fst) ∧
    (∃ v, SParams.ucl tblW sParamsW (Nobs.scalar 5) = Except.ok (LimVal.scalar v)) ∧
    (∃ l, SParams.ucl tblW sParamsW (Nobs.series [((1 : ℕ), (4 : ℤ))]) = Except.ok (LimVal.series l) ∧
      l.map Prod.fst = ([((1 : ℕ), (4 : ℤ))] : List (ℕ × ℤ)).map Prod.fst) ∧
    (∃ msg, ewmaCE.lcl (Nobs.scalar 5) = Except.error msg) ∧
    (∃ l, ewmaCE.lcl (Nobs.series [((1 : ℕ), (4 : ℤ))]) = Except.ok (LimVal.series l) ∧
      l.map Prod.fst = ([((1 : ℕ), (4 : ℤ))] : List (ℕ × ℤ)).map Prod.fst) ∧
    (∃ msg, ewmaCE.ucl (Nobs.scalar 5) = Except.error msg) ∧
    (∃ l, ewmaCE.ucl (Nobs.series [((1 : ℕ), (4 : ℤ))]) = Except.ok (LimVal.series l) ∧
      l.map Prod.fst = ([((1 : ℕ), (4 : ℤ))] : List (ℕ × ℤ)).map Prod.fst) ∧
    (∃ msg, mewmaBug.ucl (Nobs.scalar 5) = Except.error msg) ∧
    (∃ l, mewmaBug.ucl (Nobs.series [((1 : ℕ), (4 : ℤ))]) = Except.ok (LimVal.series l) ∧
      l.map Prod.fst = ([((1 : ℕ), (4 : ℤ))] : List (ℕ × ℤ)).map Prod.fst) ∧
    mewmaBug.lcl (Nobs.scalar 5) = none ∧ mewmaBug.lcl (Nobs.series [((1 : ℕ), (4 : ℤ))]) = none) :=
  ⟨by simp [tblW], by decide, by decide, by decide,
    nobs_shapes tblW (by simp [tblW]) xbarBug rParamsW sParamsW ewmaCE mewmaBug 5
      (by decide) (by decide) [((1 : ℕ), (4 : ℤ))] (by decide)⟩

lemma getD_map_of_lt {β γ : Type} (f : β → γ) (s : List β) (t : ℕ) (ht : t < s.length)
    (d : γ) : (s.map f).getD t d = f (s.get ⟨t, ht⟩) := by
  rw [List.getD_eq_getElem?_getD, List.getElem?_map, List.getElem?_eq_getElem ht]
  simp [List.get_eq_getElem]

/-- C1 counterexample: for the EWMA parameters `ewmaCE` (not in steady
state) and the one-point `nobs` series with pandas index `0`, the code
computes `lcl = mu_0` (the transient factor uses the exponent
`2 * index = 0`, collapsing the interval), while the claimed formula
`mu_0 - L * sigma/sqrt(nobs) * sqrt(lmda/(2-lmda) * (1-(1-lmda)^(2t+2)))`
at 0-based time `t = 0` evaluates to `-1 ≠ 0`. -/
theorem ewma_limits_counterexample :
    ewmaCE.lcl (Nobs.series [(0, 1)]) = Except.ok (LimVal.series [(0, 0)]) ∧
    ewmaCE.mu_0 - ewmaCE.L * (ewmaCE.sigma / Real.sqrt ((1 : ℤ) : ℝ)) *
        Real.sqrt (ewmaCE.lmda / (2 - ewmaCE.lmda) *
          (1 - (1 - ewmaCE.lmda) ^ (2 * 0 + 2))) = -1 ∧
    (0 : ℝ) ≠ -1 := by
  have hterm : EwmaParams.sqrt_term ewmaCE 0 = 0 := by
    simp [EwmaParams.sqrt_term, ewmaCE]
  refine ⟨?_, ?_, by norm_num⟩
  · simp only [EwmaParams.lcl, List.map_cons, List.map_nil, hterm]
    norm_num [ewmaCE]
  · have h14 : Real.sqrt (1 / 4 : ℝ) = 1 / 2 := by
      rw [show (1 / 4 : ℝ) = (1 / 2) ^ 2 by norm_num,
        Real.sqrt_sq (by norm_num : (0 : ℝ) ≤ 1 / 2)]
    simp only [ewmaCE]
    rw [show ((1 : ℤ) : ℝ) = 1 by norm_num, Real.sqrt_one]
    rw [show (1 : ℝ) / 2 / (2 - 1 / 2) * (1 - (1 - 1 / 2) ^ (2 * 0 + 2)) = 1 / 4 by norm_num]
    rw [h14]
    norm_num

/-- C1 (amended): the transient EWMA limit factor uses the exponent
`2 * i` where `i` is the pandas index value of the `nobs` series at
that position; at a position `t` (0-based) whose index value is `t + 1`
— i.e. on a 1-based index, the package's convention for sample tables —
the limits equal `mu_0 ∓ L * sigma/sqrt(nobs_t) * sqrt(lmda/(2-lmda) *
(1 - (1-lmda)^(2t+2)))`, and in steady state
`mu_0 ∓ L * sigma/sqrt(nobs_t) * sqrt(lmda/(2-lmda))` as claimed. -/
theorem ewma_limits_indexed (p : EwmaParams) (s : List (ℕ × ℤ)) (t : ℕ)
    (ht : t < s.length) (hidx : (s.get ⟨t, ht⟩).1 = t + 1) :
    ∃ lo hi : List (ℕ × ℝ),
      p.lcl (Nobs.series s) = Except.ok (LimVal.series lo) ∧
      p.ucl (Nobs.series s) = Except.ok (LimVal.series hi) ∧
      (lo.getD t (0, 0)).2 =
        p.mu_0 - p.L * (p.sigma / Real.sqrt (((s.get ⟨t, ht⟩).2 : ℤ) : ℝ)) *
          (if p.steady_state then Real.sqrt (p.lmda / (2 - p.lmda))
           else Real.sqrt (p.lmda / (2 - p.lmda) * (1 - (1 - p.lmda) ^ (2 * t + 2)))) ∧
      (hi.getD t (0, 0)).2 =
        p.mu_0 + p.L * (p.sigma / Real.sqrt (((s.get ⟨t, ht⟩).2 : ℤ) : ℝ)) *
          (if p.steady_state then Real.sqrt (p.lmda / (2 - p.lmda))
           else Real.sqrt (p.lmda / (2 - p.lmda) * (1 - (1 - p.lmda) ^ (2 * t + 2)))) := by
  refine ⟨_, _, rfl, rfl, ?_, ?_⟩
  · simp only [getD_map_of_lt _ s t ht]
    rw [hidx, EwmaParams.sqrt_term, show 2 * (t + 1) = 2 * t + 2 from by ring]
  · simp only [getD_map_of_lt _ s t ht]
    rw [hidx, EwmaParams.sqrt_term, show 2 * (t + 1) = 2 * t + 2 from by ring]

/-- Witness for C1 at `p = ewmaCE`, the series `[(1, 4)]` (1-based
index) and position `t = 0`. -/
theorem ewma_limits_indexed_witness :
    0 < ([((1 : ℕ), (4 : ℤ))] : List (ℕ × ℤ)).length ∧
    (([((1 : ℕ), (4 : ℤ))] : List (ℕ × ℤ)).get ⟨0, by decide⟩).1 = 0 + 1 ∧
    (∃ lo hi : List (ℕ × ℝ),
      ewmaCE.lcl (Nobs.series [(1, 4)]) = Except.ok (LimVal.series lo) ∧
      ewmaCE.ucl (Nobs.series [(1, 4)]) = Except.ok (LimVal.series hi) ∧
      (lo.getD 0 (0, 0)).2 =
        ewmaCE.mu_0 - ewmaCE.L * (ewmaCE.sigma / Real.sqrt ((4 : ℤ) : ℝ)) *
          (if ewmaCE.steady_state then Real.sqrt (ewmaCE.lmda / (2 - ewmaCE.lmda))
           else Real.sqrt (ewmaCE.lmda / (2 - ewmaCE.lmda) *
             (1 - (1 - ewmaCE.lmda) ^ (2 * 0 + 2)))) ∧
      (hi.getD 0 (0, 0)).2 =
        ewmaCE.mu_0 + ewmaCE.L * (ewmaCE.sigma / Real.sqrt ((4 : ℤ) : ℝ)) *
          (if ewmaCE.steady_state then Real.sqrt (ewmaCE.lmda / (2 - ewmaCE.lmda))
           else Real.sqrt (ewmaCE.lmda / (2 - ewmaCE.lmda) *
             (1 - (1 - ewmaCE.lmda) ^ (2 * 0 + 2))))) :=
  ⟨by decide, by decide,
    ewma_limits_indexed ewmaCE [((1 : ℕ), (4 : ℤ))] 0 (by decide) (by decide)⟩

/-- C6: the `limits` rule alarms exactly where `stat >= ucl(nobs)` or
`stat <= lcl(nobs)`, and a limit that is `None` — such as MEWMA's
`lcl` — never triggers an alarm (pandas compares a numeric series with
`None` as all-`False` for every operator except `!=`). -/
theorem limits_rule (stat u l : List ℝ) (hu : u.length = stat.length)
    (hl : l.length = stat.length) (t : ℕ) (ht : t < stat.length) :
    ((limits stat (some l) (some u)).getD t false = true ↔
      u.getD t 0 ≤ stat.getD t 0 ∨ stat.getD t 0 ≤ l.getD t 0) ∧
    ((limits stat none (some u)).getD t false = true ↔ u.getD t 0 ≤ stat.getD t 0) ∧
    ((limits stat (some l) none).getD t false = true ↔ stat.getD t 0 ≤ l.getD t 0) ∧
    (limits stat none none).getD t false = false := by
  have hg : (geBeyond stat (some u)).getD t false = decide (u.getD t 0 ≤ stat.getD t 0) :=
    getD_zipWith _ false 0 0 stat u t ht (by omega)
  have hle : (leBeyond stat (some l)).getD t false = decide (stat.getD t 0 ≤ l.getD t 0) :=
    getD_zipWith _ false 0 0 stat l t ht (by omega)
  have hgn : (geBeyond stat none).getD t false = false := getD_map_const stat t
  have hln : (leBeyond stat none).getD t false = false := getD_map_const stat t
  have lg : (geBeyond stat (some u)).length = stat.length := by
    simp [geBeyond]
    omega
  have ll : (leBeyond stat (some l)).length = stat.length := by
    simp [leBeyond]
    omega
  have lgn : (geBeyond stat none).length = stat.length := by simp [geBeyond]
  have lln : (leBeyond stat none).length = stat.length := by simp [leBeyond]
  refine ⟨?_, ?_, ?_, ?_⟩
  · rw [limits, getD_zipWith (fun a b => a || b) false false false _ _ t (by omega) (by omega),
      hg, hle]
    simp [decide_eq_true_eq]
  · rw [limits, getD_zipWith (fun a b => a || b) false false false _ _ t (by omega) (by omega),
      hg, hln]
    simp [decide_eq_true_eq]
  · rw [limits, getD_zipWith (fun a b => a || b) false false false _ _ t (by omega) (by omega),
      hgn, hle]
    simp [decide_eq_true_eq]
  · rw [limits, getD_zipWith (fun a b => a || b) false false false _ _ t (by omega) (by omega),
      hgn, hln]
    rfl

/-- Witness for C6 at `stat = [1, 5]`, `ucl = [4, 4]`, `lcl = [0, 0]`,
position `t = 0`. -/
theorem limits_rule_witness :
    ([(4 : ℝ), 4]).length = ([(1 : ℝ), 5]).length ∧
    ([(0 : ℝ), 0]).length = ([(1 : ℝ), 5]).length ∧ 0 < ([(1 : ℝ), 5]).length ∧
    (((limits [(1 : ℝ), 5] (some [0, 0]) (some [4, 4])).getD 0 false = true ↔
      ([(4 : ℝ), 4]).getD 0 0 ≤ ([(1 : ℝ), 5]).getD 0 0 ∨
        ([(1 : ℝ), 5]).getD 0 0 ≤ ([(0 : ℝ), 0]).getD 0 0) ∧
    ((limits [(1 : ℝ), 5] none (some [4, 4])).getD 0 false = true ↔
      ([(4 : ℝ), 4]).getD 0 0 ≤ ([(1 : ℝ), 5]).getD 0 0) ∧
    ((limits [(1 : ℝ), 5] (some [0, 0]) none).getD 0 false = true ↔
      ([(1 : ℝ), 5]).getD 0 0 ≤ ([(0 : ℝ), 0]).getD 0 0) ∧
    (limits [(1 : ℝ), 5] none none).getD 0 false = false) :=
  ⟨rfl, rfl, by decide,
    limits_rule [(1 : ℝ), 5] [(4 : ℝ), 4] [(0 : ℝ), 0] rfl rfl 0 (by decide)⟩

lemma inv_mulVec_fin_one (M : Matrix (Fin 1) (Fin 1) ℝ) (g : Fin 1 → ℝ) :
    Matrix.mulVec M⁻¹ g 0 = (M 0 0)⁻¹ * g 0 := by
  rw [Matrix.inv_def, Matrix.det_fin_one, Matrix.adjugate_fin_one]
  simp [Matrix.mulVec, Matrix.dotProduct, Fin.sum_univ_one, Matrix.smul_apply,
    Matrix.one_apply_eq, Ring.inverse_eq_inv, smul_eq_mul]

lemma fredholm2_cons (t0 lmda x0 w0 : ℝ) (fn_K : ℝ → ℝ → ℝ) (fn_g : ℝ → ℝ) :
    fredholm2 t0 fn_K fn_g lmda [x0] [w0] = Except.ok (fn_g t0 +
      lmda * (w0 * ((1 - lmda * (w0 * fn_K x0 x0))⁻¹ * fn_g 0) * fn_K t0 x0)) := by
  unfold fredholm2
  rw [dif_pos (show ([x0] : List ℝ).length = ([w0] : List ℝ).length from rfl)]
  refine congrArg Except.ok ?_
  show fn_g t0 + lmda * (∑ j : Fin 1,
      ([w0].get (Fin.cast rfl j)) *
        Matrix.mulVec ((1 : Matrix (Fin 1) (Fin 1) ℝ) - lmda •
            (Matrix.of (fun i k : Fin 1 =>
              ([w0].get (Fin.cast rfl k)) * fn_K ([x0].get i) ([x0].get k))))⁻¹
          (fun i : Fin 1 => fn_g ((i : ℕ) : ℝ)) j *
        fn_K t0 ([x0].get j)) = _
  rw [Fin.sum_univ_one, inv_mulVec_fin_one]
  have hM : ((1 : Matrix (Fin 1) (Fin 1) ℝ) - lmda •
      (Matrix.of (fun i k : Fin 1 =>
        ([w0].get (Fin.cast rfl k)) * fn_K ([x0].get i) ([x0].get k)))) 0 0
      = 1 - lmda * (w0 * fn_K x0 x0) := by
    simp [Matrix.sub_apply, Matrix.smul_apply, Matrix.one_apply_eq, smul_eq_mul]
  rw [hM]
  norm_num

lemma fredholm2Spec_cons (t0 lmda x0 w0 : ℝ) (fn_K : ℝ → ℝ → ℝ) (fn_g : ℝ → ℝ) :
    fredholm2Spec t0 fn_K fn_g lmda [x0] [w0] = Except.ok (fn_g t0 +
      lmda * (w0 * ((1 - lmda * (w0 * fn_K x0 x0))⁻¹ * fn_g x0) * fn_K t0 x0)) := by
  unfold fredholm2Spec
  rw [dif_pos (show ([x0] : List ℝ).length = ([w0] : List ℝ).length from rfl)]
  refine congrArg Except.ok ?_
  show fn_g t0 + lmda * (∑ j : Fin 1,
      ([w0].get (Fin.cast rfl j)) *
        Matrix.mulVec ((1 : Matrix (Fin 1) (Fin 1) ℝ) - lmda •
            (Matrix.of (fun i k : Fin 1 =>
              ([w0].get (Fin.cast rfl k)) * fn_K ([x0].get i) ([x0].get k))))⁻¹
          (fun i : Fin 1 => fn_g ([x0].get i)) j *
        fn_K t0 ([x0].get j)) = _
  rw [Fin.sum_univ_one, inv_mulVec_fin_one]
  have hM : ((1 : Matrix (Fin 1) (Fin 1) ℝ) - lmda •
      (Matrix.of (fun i k : Fin 1 =>
        ([w0].get (Fin.cast rfl k)) * fn_K ([x0].get i) ([x0].get k)))) 0 0
      = 1 - lmda * (w0 * fn_K x0 x0) := by
    simp [Matrix.sub_apply, Matrix.smul_apply, Matrix.one_apply_eq, smul_eq_mul]
  rw [hM]
  norm_num

/-- C3: evaluating the code at `t0 = 0`, `K ≡ 1`, `g = id`,
`lmda = 1/2`, nodes `x = [2]`, weights `w = [1]`.  The code fills the
right-hand side with `fn_g(i)` at the loop index (`g(0) = 0` here), so
it returns `0`; the spec's construction — `g` evaluated at the
quadrature node, `g(x_0) = 2` — yields `2`. -/
theorem fredholm2_rhs_at_index :
    fredholm2 0 (fun _ _ => 1) (fun t => t) (1 / 2) [2] [1] = Except.ok 0 ∧
    fredholm2Spec 0 (fun _ _ => 1) (fun t => t) (1 / 2) [2] [1] = Except.ok 2 ∧
    (0 : ℝ) ≠ 2 := by
  refine ⟨?_, ?_, by norm_num⟩
  · rw [fredholm2_cons]
    norm_num
  · rw [fredholm2Spec_cons]
    norm_num

/-- C2: `MewmaParams._cov_z` computes the scaling factor with exponent
`2 * i + 1` (Python parses `2 * i+1` as `(2 * i) + 1`), so at the first
sample (`i = 0`) with `lmda = 1/2` and identity covariance the entry is
`1/3 * (1 - 1/2) = 1/6`, whereas the claimed `Sigma_t` with exponent
`2t + 2` gives `1/3 * (1 - 1/4) = 1/4`. -/
theorem mewma_cov_z_exponent :
    mewmaBug.cov_z 0 0 0 = 1 / 6 ∧
    mewmaBug.lmda / (2 - mewmaBug.lmda) * (1 - (1 - mewmaBug.lmda) ^ (2 * 0 + 2)) *
      mewmaBug.cov 0 0 = 1 / 4 ∧
    (1 / 6 : ℝ) ≠ 1 / 4 := by
  refine ⟨?_, ?_, by norm_num⟩
  · simp only [MewmaParams.cov_z, mewmaBug, Matrix.smul_apply, Matrix.one_apply_eq,
      smul_eq_mul]
    norm_num
  · simp only [mewmaBug, Matrix.one_apply_eq]
    norm_num

/-- C5: at concrete XBar parameters `centre = 1`, `sigma = 1`,
`nsigma = 3` and the one-point series `nobs = [(0, 4)]`, `lcl` returns
Python `None` (the method is not implemented on `XBarParams`; the
inherited abstract body is `pass`), while `ucl` returns the claimed
`centre + nsigma * sigma/sqrt(nobs) = 5/2`. -/
theorem xbar_lcl_missing :
    xbarBug.lcl (Nobs.series [(0, 4)]) = none ∧
    xbarBug.ucl (Nobs.series [(0, 4)]) =
      LimVal.series
        [(0, xbarBug.centre + xbarBug.nsigma * (xbarBug.sigma / Real.sqrt ((4 : ℤ) : ℝ)))] ∧
    xbarBug.centre + xbarBug.nsigma * (xbarBug.sigma / Real.sqrt ((4 : ℤ) : ℝ)) = 5 / 2 := by
  refine ⟨rfl, rfl, ?_⟩
  simp only [xbarBug]
  rw [show ((4 : ℤ) : ℝ) = 4 by norm_num, show (4 : ℝ) = 2 ^ 2 by norm_num,
    Real.sqrt_sq (by norm_num : (0 : ℝ) ≤ 2)]
  norm_num

end Mqr
